import Mathlib

/-!
Verification of the authentication core of the car-price-prediction API
(`app/core/security.py` and `app/core/dependencies.py`), shallowly embedded
in Lean 4.

Modelling conventions:
* JSON claim values are restricted to the two shapes the auth pipeline uses,
  strings and integers (`JValue`).
* Python dictionaries are association lists with dict-style update
  (`dictSet` overwrites an existing key in place, else appends).
* Python object mutation (needed for the frame property of `create_token`,
  which copies its argument before adding the `exp` claim) is made explicit
  with a small heap of dictionaries addressed by natural numbers.
* Time is modelled as an integer epoch-second clock passed explicitly; the
  source reads `datetime.now(timezone.utc)`.
* The process-wide configuration (`settings.JWT_SECRET_KEY`,
  `settings.JWT_ALGORITHM`, `settings.API_KEY`) is passed explicitly.
* The `jose` JWT library is modelled symbolically: a signature records the
  exact signing input together with the secret and algorithm used, which is
  the standard collision-free model of an HMAC.  `jwt_decode` validates the
  signature and algorithm first and only then the `exp` claim, as the
  library does; the optional claim validations this repository never
  exercises (`nbf`, `aud`, ...) are outside the claims' scope.
* The `argon2` password hasher is modelled symbolically as well: the digest
  is a free constructor over parameters, salt and password (collision-free
  KDF model) and the per-call random salt is an explicit argument.  Strings
  at the hashing boundary are classified by whether they parse as an argon2
  encoded hash (`Str.encoded` versus `Str.plain`), so that the argument
  order of each verification call can be represented exactly as the source
  writes it: `argon2.PasswordHasher.verify` takes the hash first, and
  `verify_password` in `security.py` passes the plain password first.
-/

set_option autoImplicit false

namespace App

/-- A JSON value appearing in a token payload: the auth pipeline only ever
stores strings (`sub`) and integers (`exp`, `user_id`). -/
inductive JValue where
  | str (s : String)
  | int (n : Int)
deriving DecidableEq, Repr

/-- Python truthiness of a claim value: `""` and `0` are falsy. -/
def JValue.falsy : JValue → Bool
  | .str s => s = ""
  | .int n => n = 0

/-- `int(v)` as applied by `jose` to the `exp` claim: integers pass through,
strings are parsed as integer literals (`ValueError` on failure is `none`). -/
def JValue.pyInt : JValue → Option Int
  | .int n => some n
  | .str s => s.toInt?

/-- A Python dict with string keys, as an association list. -/
abbrev PyDict := List (String × JValue)

/-- Python `d.get(k)` / `k in d`: first binding of the key. -/
def dictGet (d : PyDict) (k : String) : Option JValue :=
  match d with
  | [] => none
  | (k', v) :: rest => if k' = k then some v else dictGet rest k

/-- Python `d[k] = v`: overwrite the binding in place, else append. -/
def dictSet (d : PyDict) (k : String) (v : JValue) : PyDict :=
  match d with
  | [] => [(k, v)]
  | (k', v') :: rest => if k' = k then (k, v) :: rest else (k', v') :: dictSet rest k v

/-- A heap of Python dict objects, addressed by allocation index.  Used to
state mutation (frame) properties of code that copies or updates dicts. -/
abbrev Heap := List PyDict

/-- Dereference a dict object. -/
def heapGet : Heap → Nat → PyDict
  | [], _ => []
  | d :: _, 0 => d
  | _ :: h, n + 1 => heapGet h n

/-- In-place update of a dict object. -/
def heapSet : Heap → Nat → PyDict → Heap
  | [], _, _ => []
  | _ :: h, 0, d => d :: h
  | e :: h, n + 1, d => e :: heapSet h n d

/-- Allocate a fresh dict object (Python `data.copy()` allocates). -/
def heapAlloc (h : Heap) (d : PyDict) : Heap × Nat :=
  (h ++ [d], h.length)

/-- A JWS signature, modelled symbolically: it records the signing input and
the secret and algorithm that produced it.  Equality of signatures is
equality of these components — the collision-free model of an HMAC. -/
structure Signature where
  payload : PyDict
  secret : String
  alg : String
deriving DecidableEq, Repr

/-- A compact JWT: a payload segment plus the signature segment.  In a
well-formed token the signature was computed over the payload; a tampered
token carries a payload the signature does not match. -/
structure Token where
  payload : PyDict
  sig : Signature
deriving DecidableEq, Repr

/-- `jose.jwt.encode(payload, secret, algorithm)`: sign the payload. -/
def jwt_encode (payload : PyDict) (secret alg : String) : Token :=
  { payload := payload, sig := ⟨payload, secret, alg⟩ }

/-- The errors `jose.jwt.decode` raises on the paths this repository
exercises.  `jwtClaimsError` (a subclass of `JWTError` in the library) is
raised when the `exp` claim is not an integer. -/
inductive JoseError where
  | jwtError
  | expiredSignature
  | jwtClaimsError
deriving DecidableEq, Repr

/-- `jose.jwt.decode(token, secret, algorithms=[alg])` at clock `now`:
verify the signature against the given secret and algorithm first; only if
it matches, validate the `exp` claim (expired when `exp < now`; absent
`exp` is not checked by the library). -/
def jwt_decode (tok : Token) (secret alg : String) (now : Int) : Except JoseError PyDict :=
  if tok.sig.secret = secret ∧ tok.sig.alg = alg ∧ tok.sig.payload = tok.payload then
    match dictGet tok.payload "exp" with
    | none => .ok tok.payload
    | some v =>
      match v.pyInt with
      | none => .error .jwtClaimsError
      | some e => if e < now then .error .expiredSignature else .ok tok.payload
  else
    .error .jwtError

/-- The `ValueError` raised by `create_token` on a non-positive ttl. -/
inductive SecurityError where
  | valueError (msg : String)
deriving DecidableEq, Repr

/-- `create_token(data, expire_minutes)` from `app/core/security.py`.
`data` is a reference to a dict on the heap `h`; `now`, `secret` and `alg`
stand for the wall clock and the process-wide settings.  The source copies
`data`, sets `exp` on the copy to the integer epoch timestamp
`now + 60 * expire_minutes`, and signs the copy. -/
def create_token (h : Heap) (data : Nat) (expire_minutes : Int) (now : Int)
    (secret alg : String) : Except SecurityError (Heap × Token) :=
  if expire_minutes ≤ 0 then
    .error (.valueError "expire_minutes must be a positive integer")
  else
    let copied := heapAlloc h (heapGet h data)
    let h1 := copied.1
    let r := copied.2
    let h2 := heapSet h1 r (dictSet (heapGet h1 r) "exp" (.int (now + 60 * expire_minutes)))
    .ok (h2, jwt_encode (heapGet h2 r) secret alg)

/-- `verify_token(token)` from `app/core/security.py`: decode and return the
payload, catching `ExpiredSignatureError` and `JWTError` as `None`. -/
def verify_token (tok : Token) (secret alg : String) (now : Int) : Option PyDict :=
  match jwt_decode tok secret alg now with
  | .ok payload => some payload
  | .error .expiredSignature => none
  | .error .jwtError => none
  | .error .jwtClaimsError => none

/-- Parameters an argon2 encoded hash embeds alongside the salt. -/
structure Argon2Params where
  timeCost : Nat
  memoryCost : Nat
  parallelism : Nat
deriving DecidableEq, Repr

/-- The argon2 digest, modelled as a free constructor over the parameters,
the salt and the character content of the password: the collision-free
model of a KDF.  The password argument of a call may itself be an argon2
encoded hash string (`ofHash` hashes its components), since the program
does pass a stored hash into the password slot. -/
inductive Digest where
  | ofPlain (params : Argon2Params) (salt : String) (password : String)
  | ofHash (params : Argon2Params) (salt : String)
           (hparams : Argon2Params) (hsalt : String) (hdigest : Digest)
deriving DecidableEq, Repr

/-- A Python string at the password-hashing boundary, classified by whether
it parses as an argon2 encoded hash (the format is self-describing, so the
two cases partition the strings): `encoded` carries the recovered
parameters, salt and digest; `plain` is any string that does not parse —
ordinary passwords in particular. -/
inductive Str where
  | encoded (params : Argon2Params) (salt : String) (digest : Digest)
  | plain (s : String)
deriving DecidableEq, Repr

/-- The argon2 digest of a string under given parameters and salt; injective
in the string by constructor discrimination. -/
def argon2Digest (params : Argon2Params) (salt : String) : Str → Digest
  | .plain s => .ofPlain params salt s
  | .encoded hparams hsalt hdigest => .ofHash params salt hparams hsalt hdigest

/-- The exceptions `argon2.PasswordHasher.verify` raises: mismatching
password (`VerifyMismatchError`) or unparseable hash (`InvalidHash`). -/
inductive Argon2Error where
  | verifyMismatch
  | invalidHash
deriving DecidableEq, Repr

/-- `argon2.PasswordHasher.verify(hash, password)` — the hash is the FIRST
argument of this library API.  It parses the hash (raising `InvalidHash`
when the first argument is not an argon2 encoded string), then recomputes
the digest of the password with the embedded parameters and salt.  Returns
`True` on a match and raises on everything else — it never returns
`False`. -/
def argon2_verify (hash : Str) (password : Str) : Except Argon2Error Bool :=
  match hash with
  | .plain _ => .error .invalidHash
  | .encoded params salt digest =>
    if digest = argon2Digest params salt password then .ok true
    else .error .verifyMismatch

/-- `hash_password(password)` from `app/core/security.py`, which calls
`argon2.PasswordHasher.hash`.  The hasher draws a fresh random salt per
call; that nondeterminism is made explicit by the `params` and `salt`
arguments, over which the theorems quantify. -/
def hash_password (params : Argon2Params) (salt : String) (password : Str) : Str :=
  .encoded params salt (argon2Digest params salt password)

/-- `verify_password(plain_password, hashed_password)` from
`app/core/security.py`: it calls `pwd_context.verify(plain_password,
hashed_password)` — the plain password in the first (hash) slot of the
hash-first argon2 API, in exactly that order — and catches every exception
as `False`. -/
def verify_password (plain_password : Str) (hashed_password : Str) : Bool :=
  match argon2_verify plain_password hashed_password with
  | .ok b => b
  | .error _ => false

/-- A FastAPI `HTTPException(status_code, detail)`. -/
structure HTTPException where
  status_code : Nat
  detail : String
deriving DecidableEq, Repr

/-- The ASCII whitespace characters Python's `str.strip()` and
`str.split()` treat as separators (Unicode-only spaces are not used by any
input in scope). -/
def pyIsSpace (c : Char) : Bool :=
  c = ' ' ∨ c = '\t' ∨ c = '\n' ∨ c = '\r' ∨ c = '\x0b' ∨ c = '\x0c'

/-- Python `s.strip()`: drop whitespace from both ends. -/
def pyStrip (s : String) : String :=
  ⟨(((s.data.dropWhile pyIsSpace).reverse.dropWhile pyIsSpace).reverse)⟩

/-- Accumulator pass behind `pySplit`: split on runs of whitespace,
discarding empty fragments (the semantics of Python `s.split()` with no
separator argument). -/
def pySplitAux : List Char → List Char → List (List Char)
  | [], [] => []
  | [], cur => [cur.reverse]
  | c :: cs, cur =>
    if pyIsSpace c then
      match cur with
      | [] => pySplitAux cs []
      | _ :: _ => cur.reverse :: pySplitAux cs []
    else
      pySplitAux cs (c :: cur)

/-- Python `s.split()` with no arguments. -/
def pySplit (s : String) : List String :=
  (pySplitAux s.data []).map (fun l => ⟨l⟩)

/-- Python `s.lower()`, character by character. -/
def pyLower (s : String) : String :=
  ⟨s.data.map Char.toLower⟩

/-- Decidable equality of `Except` results, so that concrete runs of the
fallible operations can be checked by `decide`. -/
instance instDecidableEqExcept {ε α : Type} [DecidableEq ε] [DecidableEq α] :
    DecidableEq (Except ε α) := fun a b =>
  match a, b with
  | .ok x, .ok y =>
    if h : x = y then .isTrue (by rw [h])
    else .isFalse (by intro hc; injection hc; contradiction)
  | .error x, .error y =>
    if h : x = y then .isTrue (by rw [h])
    else .isFalse (by intro hc; injection hc; contradiction)
  | .ok _, .error _ => .isFalse (by intro hc; injection hc)
  | .error _, .ok _ => .isFalse (by intro hc; injection hc)

/-- `get_api_key(x_api_key)` from `app/core/dependencies.py`.  `x_api_key`
is the optional `X-API-Key` header value; `api_key_setting` stands for
`settings.API_KEY`.  The source rejects a falsy header (absent or empty)
as missing, strips the provided value and compares it to the configured
key, and returns the original (unstripped) value on success. -/
def get_api_key (x_api_key : Option String) (api_key_setting : String) :
    Except HTTPException String :=
  match x_api_key with
  | none => .error ⟨403, "API key is required. Provide X-API-Key header."⟩
  | some k =>
    if k = "" then .error ⟨403, "API key is required. Provide X-API-Key header."⟩
    else if pyStrip k ≠ api_key_setting then .error ⟨403, "Invalid API key"⟩
    else .ok k

/-- `get_token_from_header(authorization)` from
`app/core/dependencies.py`: reject a falsy header as missing, split it on
whitespace, require exactly two parts with a case-insensitive `bearer`
scheme, and return the second part. -/
def get_token_from_header (authorization : Option String) : Except HTTPException String :=
  match authorization with
  | none => .error ⟨401, "Authorization header is required"⟩
  | some a =>
    if a = "" then .error ⟨401, "Authorization header is required"⟩
    else if (pySplit a).length ≠ 2 ∨ pyLower ((pySplit a).headD "") ≠ "bearer" then
      .error ⟨401, "Invalid authorization header. Use: Bearer <token>"⟩
    else
      .ok ((pySplit a).getD 1 "")

/-- A row of the `users` table (`app/database/models.py`). -/
structure User where
  id : Int
  username : String
  email : String
  hashed_password : Str
  is_active : Bool
  is_admin : Bool
deriving DecidableEq, Repr

/-- The user store: the rows the session can see. -/
abbrev UserDb := List User

/-- `db.query(User).filter(User.username == v).first()`: the first row
whose username column equals the filter value (a non-string value matches
no row of the string column). -/
def firstUserBySub (db : UserDb) (v : JValue) : Option User :=
  db.find? (fun u => JValue.str u.username = v)

/-- `get_current_user(payload, db)` from `app/core/dependencies.py`:
read the `sub` claim (rejecting a falsy value as an invalid payload), look
the subject up in the user store, and enforce the active flag. -/
def get_current_user (payload : PyDict) (db : UserDb) : Except HTTPException User :=
  match dictGet payload "sub" with
  | none => .error ⟨401, "Invalid token payload"⟩
  | some v =>
    if v.falsy then .error ⟨401, "Invalid token payload"⟩
    else
      match firstUserBySub db v with
      | none => .error ⟨401, "User not found"⟩
      | some user =>
        if !user.is_active then .error ⟨403, "User account is deactivated"⟩
        else .ok user

/-! Helper lemmas about the dict and heap primitives. -/

theorem dictGet_dictSet_self (d : PyDict) (k : String) (v : JValue) :
    dictGet (dictSet d k v) k = some v := by
  induction d with
  | nil => simp [dictSet, dictGet]
  | cons p rest ih =>
    obtain ⟨k', v'⟩ := p
    by_cases h : k' = k
    · simp [dictSet, dictGet, h]
    · simp [dictSet, dictGet, h, ih]

theorem dictGet_dictSet_ne (d : PyDict) (k k' : String) (v : JValue) (h : k' ≠ k) :
    dictGet (dictSet d k' v) k = dictGet d k := by
  induction d with
  | nil => simp [dictSet, dictGet, h]
  | cons p rest ih =>
    obtain ⟨a, b⟩ := p
    by_cases ha : a = k'
    · simp [dictSet, dictGet, ha, h]
    · by_cases hak : a = k
      · simp [dictSet, dictGet, ha, hak, Ne.symm h]
      · simp [dictSet, dictGet, ha, hak, ih]

theorem heapGet_append_singleton (h : Heap) (d : PyDict) :
    heapGet (h ++ [d]) h.length = d := by
  induction h with
  | nil => rfl
  | cons e rest ih => simpa [heapGet] using ih

theorem heapGet_append_lt (h : Heap) (d : PyDict) (m : Nat) (hm : m < h.length) :
    heapGet (h ++ [d]) m = heapGet h m := by
  induction h generalizing m with
  | nil => simp at hm
  | cons e rest ih =>
    cases m with
    | zero => rfl
    | succ m => simpa [heapGet] using ih m (by simpa using hm)

theorem heapGet_heapSet_self (h : Heap) (n : Nat) (d : PyDict) (hn : n < h.length) :
    heapGet (heapSet h n d) n = d := by
  induction h generalizing n with
  | nil => simp at hn
  | cons e rest ih =>
    cases n with
    | zero => rfl
    | succ n => simpa [heapGet, heapSet] using ih n (by simpa using hn)

theorem heapGet_heapSet_ne (h : Heap) (n m : Nat) (d : PyDict) (hnm : m ≠ n) :
    heapGet (heapSet h n d) m = heapGet h m := by
  induction h generalizing n m with
  | nil => rfl
  | cons e rest ih =>
    cases n with
    | zero =>
      cases m with
      | zero => omega
      | succ m => rfl
    | succ n =>
      cases m with
      | zero => rfl
      | succ m => simpa [heapGet, heapSet] using ih n m (by omega)

/-- Evaluation of `create_token` on a positive ttl: the heap gains one dict
(the copy of `data` with the `exp` claim set) and the returned token signs
that copy. -/
theorem create_token_pos (h : Heap) (data : Nat) (t now : Int) (secret alg : String)
    (ht : 0 < t) :
    create_token h data t now secret alg =
      .ok (heapSet (h ++ [heapGet h data]) h.length
             (dictSet (heapGet h data) "exp" (.int (now + 60 * t))),
           jwt_encode (dictSet (heapGet h data) "exp" (.int (now + 60 * t))) secret alg) := by
  unfold create_token
  rw [if_neg (by omega)]
  simp only [heapAlloc]
  rw [heapGet_append_singleton]
  rw [heapGet_heapSet_self _ _ _ (by simp)]

/-- The password matches a candidate stored hash when the hash parses as
an argon2 encoded hash and its digest is the argon2 digest of the password
under the parameters and salt the hash embeds — the relation the
`verify_password` docstring promises to decide. -/
def passwordMatches (p : Str) : Str → Bool
  | .plain _ => false
  | .encoded params salt digest => digest = argon2Digest params salt p

/-- C7: the hash/verify round trip fails in the code.  `verify_password`
hands its arguments in their own order to the hash-first argon2 API, so the
plain password lands in the hash slot: for every ordinary password and
every salt and parameter choice, verifying the password against its own
freshly produced hash raises `InvalidHash` internally and returns false —
while the same pair passed in the order the library expects verifies.  The
code contradicts its own docstring; the claim states the intent. -/
theorem verify_password_roundtrip_fails (params : Argon2Params) (salt : String)
    (p : String) :
    verify_password (.plain p) (hash_password params salt (.plain p)) = false ∧
    argon2_verify (hash_password params salt (.plain p)) (.plain p) = .ok true := by
  constructor
  · rfl
  · simp [argon2_verify, hash_password]

/-- C8: `verify_password` is total and maps every exception of the argon2
verifier to false — but it does not return true exactly on a match: with
the plain password in the hash slot it returns false for every ordinary
password against every candidate stored hash, in particular when the
stored hash matches the password. -/
theorem verify_password_false_on_match (p : String) (hs : Str)
    (_hmatch : passwordMatches (.plain p) hs = true) :
    verify_password (.plain p) hs = false := rfl

/-- Concrete run of `verify_password_false_on_match`: the stored hash of
`s3cret!` matches the password `s3cret!`, yet `verify_password` returns
false on the pair. -/
theorem verify_password_false_on_match_witness :
    passwordMatches (Str.plain "s3cret!")
        (hash_password ⟨2, 64, 1⟩ "salt0" (Str.plain "s3cret!")) = true ∧
    verify_password (Str.plain "s3cret!")
        (hash_password ⟨2, 64, 1⟩ "salt0" (Str.plain "s3cret!")) = false :=
  ⟨by decide,
   verify_password_false_on_match "s3cret!"
     (hash_password ⟨2, 64, 1⟩ "salt0" (Str.plain "s3cret!")) (by decide)⟩

/-- C9: token issuance with a non-positive `expire_minutes` fails with the
`ValueError` (and returns no token, the error carrying none); issuance
with a positive `expire_minutes` does not raise it and returns a token. -/
theorem create_token_ttl_validation (h : Heap) (data : Nat) (t now : Int)
    (secret alg : String) :
    (t ≤ 0 → create_token h data t now secret alg =
        .error (.valueError "expire_minutes must be a positive integer")) ∧
    (0 < t → ∃ h' tok, create_token h data t now secret alg = .ok (h', tok)) := by
  constructor
  · intro ht
    unfold create_token
    rw [if_pos ht]
  · intro ht
    exact ⟨_, _, create_token_pos h data t now secret alg ht⟩

/-- Concrete runs of `create_token_ttl_validation`: ttl −5 fails with the
`ValueError`, ttl 30 issues a token. -/
theorem create_token_ttl_validation_witness :
    create_token [[("sub", JValue.str "alice")]] 0 (-5) 1000 "secret" "HS256" =
      .error (.valueError "expire_minutes must be a positive integer") ∧
    (∃ h' tok, create_token [[("sub", JValue.str "alice")]] 0 30 1000 "secret" "HS256" =
      .ok (h', tok)) :=
  ⟨(create_token_ttl_validation [[("sub", JValue.str "alice")]] 0 (-5) 1000 "secret" "HS256").1
      (by decide),
   (create_token_ttl_validation [[("sub", JValue.str "alice")]] 0 30 1000 "secret" "HS256").2
      (by decide)⟩

/-- C10: `create_token` never mutates the caller's dict: the `exp` claim is
written to a freshly allocated copy, so the dict passed in is unchanged
after a successful call — also when it already contained an `exp` key. -/
theorem create_token_no_mutation (h : Heap) (data : Nat) (t now : Int)
    (secret alg : String) (h' : Heap) (tok : Token) (hdata : data < h.length)
    (hok : create_token h data t now secret alg = .ok (h', tok)) :
    heapGet h' data = heapGet h data := by
  by_cases ht : t ≤ 0
  · unfold create_token at hok
    rw [if_pos ht] at hok
    cases hok
  · rw [create_token_pos h data t now secret alg (by omega)] at hok
    injection hok with hok
    have hh : h' = heapSet (h ++ [heapGet h data]) h.length
        (dictSet (heapGet h data) "exp" (.int (now + 60 * t))) :=
      (congrArg Prod.fst hok).symm
    rw [hh, heapGet_heapSet_ne _ _ _ _ (by omega), heapGet_append_lt _ _ _ hdata]

/-- Concrete run of `create_token_no_mutation`: the caller's dict already
holds an `exp` claim; after issuance it is unchanged while the copy on the
heap carries the fresh `exp`. -/
theorem create_token_no_mutation_witness :
    heapGet [[("sub", JValue.str "alice"), ("exp", JValue.int 5)],
             [("sub", JValue.str "alice"), ("exp", JValue.int 2800)]] 0 =
      heapGet [[("sub", JValue.str "alice"), ("exp", JValue.int 5)]] 0 :=
  create_token_no_mutation [[("sub", JValue.str "alice"), ("exp", JValue.int 5)]] 0 30 1000
    "secret" "HS256"
    [[("sub", JValue.str "alice"), ("exp", JValue.int 5)],
     [("sub", JValue.str "alice"), ("exp", JValue.int 2800)]]
    (jwt_encode [("sub", JValue.str "alice"), ("exp", JValue.int 2800)] "secret" "HS256")
    (by decide) rfl

/-- The signature segment of the token matches its payload segment under
the verifier's secret and algorithm. -/
def signatureOk (tok : Token) (secret alg : String) : Bool :=
  tok.sig.secret == secret && tok.sig.alg == alg && tok.sig.payload == tok.payload

/-- The expiry of the token has not passed at clock `now` (an absent `exp`
is not checked by the library; an unparseable one is treated as a claims
error, hence not ok). -/
def expiryOk (tok : Token) (now : Int) : Bool :=
  match dictGet tok.payload "exp" with
  | none => true
  | some v =>
    match v.pyInt with
    | none => false
    | some e => if e < now then false else true

/-- A freshly signed token whose `exp` claim lies at or after `now`
verifies to its own payload. -/
theorem verify_token_jwt_encode (d : PyDict) (secret alg : String) (now e : Int)
    (hexp : dictGet d "exp" = some (.int e)) (he : ¬e < now) :
    verify_token (jwt_encode d secret alg) secret alg now = some d := by
  unfold verify_token jwt_decode jwt_encode
  rw [if_pos ⟨rfl, rfl, rfl⟩]
  simp only [hexp, JValue.pyInt]
  rw [if_neg he]

/-- C1: the issue/verify round trip.  For every heap, every claims dict on
it containing a subject, every positive ttl and every secret and algorithm,
`create_token` succeeds and verifying the issued token at the issuance
clock succeeds and returns a payload carrying the same subject. -/
theorem issue_verify_roundtrip (h : Heap) (data : Nat) (t now : Int) (secret alg : String)
    (v : JValue) (ht : 0 < t) (hsub : dictGet (heapGet h data) "sub" = some v) :
    ∃ h' tok payload,
      create_token h data t now secret alg = .ok (h', tok) ∧
      verify_token tok secret alg now = some payload ∧
      dictGet payload "sub" = some v := by
  refine ⟨heapSet (h ++ [heapGet h data]) h.length
            (dictSet (heapGet h data) "exp" (.int (now + 60 * t))),
          jwt_encode (dictSet (heapGet h data) "exp" (.int (now + 60 * t))) secret alg,
          dictSet (heapGet h data) "exp" (.int (now + 60 * t)),
          create_token_pos h data t now secret alg ht, ?_, ?_⟩
  · exact verify_token_jwt_encode _ secret alg now (now + 60 * t)
      (dictGet_dictSet_self _ _ _) (by omega)
  · rw [dictGet_dictSet_ne _ _ _ _ (by decide)]
    exact hsub

/-- Concrete run of `issue_verify_roundtrip`: issuing for subject `alice`
with ttl 30 at clock 1000 and verifying at the same clock returns a payload
with subject `alice`. -/
theorem issue_verify_roundtrip_witness :
    ∃ h' tok payload,
      create_token [[("sub", JValue.str "alice")]] 0 30 1000 "secret" "HS256" =
        .ok (h', tok) ∧
      verify_token tok "secret" "HS256" 1000 = some payload ∧
      dictGet payload "sub" = some (JValue.str "alice") :=
  issue_verify_roundtrip [[("sub", JValue.str "alice")]] 0 30 1000 "secret" "HS256"
    (JValue.str "alice") (by decide) rfl

/-- C2: a token whose payload segment was mutated after signing (so the
signature no longer matches it) is rejected by the signature check — the
decode error is `jwtError`, not `expiredSignature`, at every clock, in
particular while the `exp` claim still lies in the future — and
`verify_token` returns `None` for it. -/
theorem tampered_token_rejected (payload p' : PyDict) (secret alg : String) (now : Int)
    (hne : p' ≠ payload) :
    jwt_decode { payload := p', sig := (jwt_encode payload secret alg).sig } secret alg now =
      .error .jwtError ∧
    verify_token { payload := p', sig := (jwt_encode payload secret alg).sig } secret alg now =
      none := by
  have hdec : jwt_decode { payload := p', sig := (jwt_encode payload secret alg).sig }
      secret alg now = .error .jwtError := by
    unfold jwt_decode jwt_encode
    rw [if_neg (fun hc => hne hc.2.2.symm)]
  refine ⟨hdec, ?_⟩
  unfold verify_token
  rw [hdec]

/-- Concrete run of `tampered_token_rejected`: a token signed over subject
`alice` whose payload segment was rewritten to subject `mallory` is
rejected at clock 1000 although its `exp` claim (2800) is still in the
future. -/
theorem tampered_token_rejected_witness :
    jwt_decode { payload := [("sub", JValue.str "mallory"), ("exp", JValue.int 2800)],
                 sig := (jwt_encode [("sub", JValue.str "alice"), ("exp", JValue.int 2800)]
                          "secret" "HS256").sig } "secret" "HS256" 1000 =
      .error .jwtError ∧
    verify_token { payload := [("sub", JValue.str "mallory"), ("exp", JValue.int 2800)],
                   sig := (jwt_encode [("sub", JValue.str "alice"), ("exp", JValue.int 2800)]
                            "secret" "HS256").sig } "secret" "HS256" 1000 =
      none :=
  tampered_token_rejected [("sub", JValue.str "alice"), ("exp", JValue.int 2800)]
    [("sub", JValue.str "mallory"), ("exp", JValue.int 2800)] "secret" "HS256" 1000
    (by decide)

/-- C3: `verify_token` returns a payload only when the signature matches
and the expiry has not passed (and the payload it returns is the token's);
whenever the signature fails or the expiry check fails it returns `None`
(the decode exceptions are all caught, none reaches the caller); and the
spec scenario: a token issued with ttl 1 minute, verified 120 seconds
later, yields `None`. -/
theorem verify_token_sound (tok : Token) (secret alg : String) (now : Int) :
    (∀ p, verify_token tok secret alg now = some p →
       signatureOk tok secret alg = true ∧ expiryOk tok now = true ∧ p = tok.payload) ∧
    (signatureOk tok secret alg = false ∨ expiryOk tok now = false →
       verify_token tok secret alg now = none) ∧
    (∀ h data h1 tok1, create_token h data 1 now secret alg = .ok (h1, tok1) →
       verify_token tok1 secret alg (now + 120) = none) := by
  refine ⟨?_, ?_, ?_⟩
  · intro p hp
    unfold verify_token jwt_decode at hp
    by_cases hsig : tok.sig.secret = secret ∧ tok.sig.alg = alg ∧ tok.sig.payload = tok.payload
    · rw [if_pos hsig] at hp
      have hsigb : signatureOk tok secret alg = true := by
        simp [signatureOk, hsig.1, hsig.2.1, hsig.2.2]
      cases hexp : dictGet tok.payload "exp" with
      | none =>
        simp only [hexp] at hp
        exact ⟨hsigb, by simp [expiryOk, hexp], (Option.some.inj hp).symm⟩
      | some v =>
        simp only [hexp] at hp
        cases hpi : v.pyInt with
        | none =>
          simp only [hpi] at hp
          exact Option.noConfusion hp
        | some e =>
          simp only [hpi] at hp
          by_cases he : e < now
          · simp only [if_pos he] at hp
            exact Option.noConfusion hp
          · simp only [if_neg he] at hp
            exact ⟨hsigb, by simp [expiryOk, hexp, hpi, he], (Option.some.inj hp).symm⟩
    · rw [if_neg hsig] at hp
      cases hp
  · intro hbad
    unfold verify_token jwt_decode
    by_cases hsig : tok.sig.secret = secret ∧ tok.sig.alg = alg ∧ tok.sig.payload = tok.payload
    · rw [if_pos hsig]
      have hsigb : signatureOk tok secret alg = true := by
        simp [signatureOk, hsig.1, hsig.2.1, hsig.2.2]
      have hexpb : expiryOk tok now = false := by
        cases hbad with
        | inl hb => rw [hsigb] at hb; cases hb
        | inr hb => exact hb
      unfold expiryOk at hexpb
      cases hexp : dictGet tok.payload "exp" with
      | none =>
        simp only [hexp] at hexpb
        exact Bool.noConfusion hexpb
      | some v =>
        simp only [hexp] at hexpb ⊢
        cases hpi : v.pyInt with
        | none => simp only [hpi]
        | some e =>
          simp only [hpi] at hexpb ⊢
          by_cases he : e < now
          · simp only [if_pos he]
          · simp only [if_neg he] at hexpb
            exact Bool.noConfusion hexpb
    · rw [if_neg hsig]
  · intro h data h1 tok1 hok
    by_cases ht : (1 : Int) ≤ 0
    · omega
    · rw [create_token_pos h data 1 now secret alg (by omega)] at hok
      injection hok with hok
      have htok : tok1 = jwt_encode (dictSet (heapGet h data) "exp" (.int (now + 60 * 1)))
          secret alg := (congrArg Prod.snd hok).symm
      rw [htok]
      unfold verify_token jwt_decode jwt_encode
      rw [if_pos ⟨rfl, rfl, rfl⟩]
      simp only [dictGet_dictSet_self, JValue.pyInt]
      rw [if_pos (by omega)]

/-- Concrete runs of `verify_token_sound`: a token signed with a different
secret is rejected, and the ttl-1-minute token verified 120 seconds later
is rejected. -/
theorem verify_token_sound_witness :
    verify_token (jwt_encode [("sub", JValue.str "alice"), ("exp", JValue.int 2800)]
        "other-secret" "HS256") "secret" "HS256" 1000 = none ∧
    verify_token (jwt_encode [("sub", JValue.str "alice"), ("exp", JValue.int 1060)]
        "secret" "HS256") "secret" "HS256" 1120 = none :=
  ⟨(verify_token_sound (jwt_encode [("sub", JValue.str "alice"), ("exp", JValue.int 2800)]
      "other-secret" "HS256") "secret" "HS256" 1000).2.1 (Or.inl (by decide)),
   (verify_token_sound (jwt_encode [("sub", JValue.str "alice"), ("exp", JValue.int 1060)]
      "secret" "HS256") "secret" "HS256" 1000).2.2
     [[("sub", JValue.str "alice")]] 0
     [[("sub", JValue.str "alice")],
      [("sub", JValue.str "alice"), ("exp", JValue.int 1060)]]
     (jwt_encode [("sub", JValue.str "alice"), ("exp", JValue.int 1060)] "secret" "HS256")
     rfl⟩

/-- C4 counterexample: the configured key with a trailing space appended is
not character-for-character equal to the configured key, yet the gate
accepts it (the source strips the provided value before comparing), so the
claimed exact-match behaviour is false as stated. -/
theorem get_api_key_exact_match_counterexample :
    get_api_key (some "demo-key ") "demo-key" = .ok "demo-key " ∧
    "demo-key " ≠ "demo-key" :=
  ⟨rfl, by decide⟩

/-- C4 amended: an absent or empty key fails as missing; a present
non-empty key succeeds (returning the original value) exactly when its
whitespace-stripped form equals the configured key, and fails as invalid
otherwise. -/
theorem get_api_key_spec (cfg : String) :
    get_api_key none cfg = .error ⟨403, "API key is required. Provide X-API-Key header."⟩ ∧
    get_api_key (some "") cfg =
      .error ⟨403, "API key is required. Provide X-API-Key header."⟩ ∧
    ∀ s, s ≠ "" →
      get_api_key (some s) cfg =
        if pyStrip s = cfg then .ok s else .error ⟨403, "Invalid API key"⟩ := by
  refine ⟨rfl, rfl, ?_⟩
  intro s hs
  simp only [get_api_key]
  rw [if_neg hs]
  by_cases h : pyStrip s = cfg
  · rw [if_neg (not_not_intro h), if_pos h]
  · rw [if_pos h, if_neg h]

/-- Concrete runs of `get_api_key_spec`: the configured key with `x`
appended is rejected as invalid, the configured key itself is accepted. -/
theorem get_api_key_spec_witness :
    get_api_key (some "demo-keyx") "demo-key" = .error ⟨403, "Invalid API key"⟩ ∧
    get_api_key (some "demo-key") "demo-key" = .ok "demo-key" :=
  ⟨((get_api_key_spec "demo-key").2.2 "demo-keyx" (by decide)).trans (by decide),
   ((get_api_key_spec "demo-key").2.2 "demo-key" (by decide)).trans (by decide)⟩

/-- C5 counterexample: a payload whose `sub` claim is present but the empty
string, against a store holding an active user with the empty username: the
claim as stated makes the resolve step succeed with that record, but the
source treats the falsy subject as an invalid token payload. -/
theorem get_current_user_empty_subject_counterexample :
    dictGet [("sub", JValue.str "")] "sub" = some (JValue.str "") ∧
    firstUserBySub [⟨1, "", "e@example.com", Str.plain "", true, false⟩]
        (JValue.str "") =
      some ⟨1, "", "e@example.com", Str.plain "", true, false⟩ ∧
    (⟨1, "", "e@example.com", Str.plain "", true, false⟩ : User).is_active = true ∧
    get_current_user [("sub", JValue.str "")]
        [⟨1, "", "e@example.com", Str.plain "", true, false⟩] =
      .error ⟨401, "Invalid token payload"⟩ :=
  ⟨rfl, rfl, rfl, rfl⟩

/-- C5 amended: a `sub` claim that is absent or falsy (the empty string or
the integer 0) fails as an invalid token payload; otherwise the subject is
looked up in the store, a missing record fails as user-not-found, an
inactive record fails as account-deactivated, and an active record is
returned as the authenticated user. -/
theorem get_current_user_spec (payload : PyDict) (db : UserDb) :
    (dictGet payload "sub" = none →
       get_current_user payload db = .error ⟨401, "Invalid token payload"⟩) ∧
    (∀ v, dictGet payload "sub" = some v → v.falsy = true →
       get_current_user payload db = .error ⟨401, "Invalid token payload"⟩) ∧
    (∀ v, dictGet payload "sub" = some v → v.falsy = false → firstUserBySub db v = none →
       get_current_user payload db = .error ⟨401, "User not found"⟩) ∧
    (∀ v u, dictGet payload "sub" = some v → v.falsy = false → firstUserBySub db v = some u →
       (u.is_active = false →
          get_current_user payload db = .error ⟨403, "User account is deactivated"⟩) ∧
       (u.is_active = true → get_current_user payload db = .ok u)) := by
  refine ⟨?_, ?_, ?_, ?_⟩
  · intro hnone
    simp [get_current_user, hnone]
  · intro v hv hf
    simp [get_current_user, hv, hf]
  · intro v hv hf hu
    simp [get_current_user, hv, hf, hu]
  · intro v u hv hf hu
    constructor
    · intro hact
      simp [get_current_user, hv, hf, hu, hact]
    · intro hact
      simp [get_current_user, hv, hf, hu, hact]

/-- Concrete runs of `get_current_user_spec` on the spec scenario: subject
`alice`, store returning an active `alice` record yields that record; an
inactive record yields the deactivated error. -/
theorem get_current_user_spec_witness :
    get_current_user [("sub", JValue.str "alice")]
        [⟨1, "alice", "alice@example.com",
          Str.encoded ⟨2, 64, 1⟩ "salt0" (Digest.ofPlain ⟨2, 64, 1⟩ "salt0" "s3cret!"),
          true, false⟩] =
      .ok ⟨1, "alice", "alice@example.com",
           Str.encoded ⟨2, 64, 1⟩ "salt0" (Digest.ofPlain ⟨2, 64, 1⟩ "salt0" "s3cret!"),
           true, false⟩ ∧
    get_current_user [("sub", JValue.str "alice")]
        [⟨1, "alice", "alice@example.com",
          Str.encoded ⟨2, 64, 1⟩ "salt0" (Digest.ofPlain ⟨2, 64, 1⟩ "salt0" "s3cret!"),
          false, false⟩] =
      .error ⟨403, "User account is deactivated"⟩ :=
  ⟨((get_current_user_spec [("sub", JValue.str "alice")]
      [⟨1, "alice", "alice@example.com",
        Str.encoded ⟨2, 64, 1⟩ "salt0" (Digest.ofPlain ⟨2, 64, 1⟩ "salt0" "s3cret!"),
        true, false⟩]).2.2.2 (JValue.str "alice")
      ⟨1, "alice", "alice@example.com",
       Str.encoded ⟨2, 64, 1⟩ "salt0" (Digest.ofPlain ⟨2, 64, 1⟩ "salt0" "s3cret!"),
       true, false⟩ rfl rfl rfl).2 rfl,
   ((get_current_user_spec [("sub", JValue.str "alice")]
      [⟨1, "alice", "alice@example.com",
        Str.encoded ⟨2, 64, 1⟩ "salt0" (Digest.ofPlain ⟨2, 64, 1⟩ "salt0" "s3cret!"),
        false, false⟩]).2.2.2 (JValue.str "alice")
      ⟨1, "alice", "alice@example.com",
       Str.encoded ⟨2, 64, 1⟩ "salt0" (Digest.ofPlain ⟨2, 64, 1⟩ "salt0" "s3cret!"),
       false, false⟩ rfl rfl rfl).1 rfl⟩

/-- C6: an absent or empty `Authorization` header fails as missing; a
present non-empty header that does not split into exactly two
whitespace-separated parts with a case-insensitive `bearer` scheme fails
as malformed; otherwise the second part is returned as the token. -/
theorem get_token_from_header_spec (authorization : Option String) :
    (authorization = none →
       get_token_from_header authorization =
         .error ⟨401, "Authorization header is required"⟩) ∧
    (authorization = some "" →
       get_token_from_header authorization =
         .error ⟨401, "Authorization header is required"⟩) ∧
    (∀ a, authorization = some a → a ≠ "" →
       ((pySplit a).length ≠ 2 ∨ pyLower ((pySplit a).headD "") ≠ "bearer" →
          get_token_from_header authorization =
            .error ⟨401, "Invalid authorization header. Use: Bearer <token>"⟩) ∧
       (∀ scheme tokenStr, pySplit a = [scheme, tokenStr] → pyLower scheme = "bearer" →
          get_token_from_header authorization = .ok tokenStr)) := by
  refine ⟨?_, ?_, ?_⟩
  · intro hn
    rw [hn]
    rfl
  · intro hn
    rw [hn]
    rfl
  · intro a ha hne
    subst ha
    constructor
    · intro hbad
      simp only [get_token_from_header]
      rw [if_neg hne, if_pos hbad]
    · intro scheme tokenStr hsplit hlower
      simp only [get_token_from_header]
      rw [if_neg hne,
          if_neg (by simp [hsplit, hlower] : ¬((pySplit a).length ≠ 2 ∨
            pyLower ((pySplit a).headD "") ≠ "bearer"))]
      simp [hsplit]

/-- Concrete runs of `get_token_from_header_spec`: an absent header is
missing, the wrong-scheme header `Token abc` is malformed, and
`Bearer abc` yields the token `abc`. -/
theorem get_token_from_header_spec_witness :
    get_token_from_header none = .error ⟨401, "Authorization header is required"⟩ ∧
    get_token_from_header (some "Token abc") =
      .error ⟨401, "Invalid authorization header. Use: Bearer <token>"⟩ ∧
    get_token_from_header (some "Bearer abc") = .ok "abc" :=
  ⟨(get_token_from_header_spec none).1 rfl,
   ((get_token_from_header_spec (some "Token abc")).2.2 "Token abc" rfl (by decide)).1
     (by decide),
   ((get_token_from_header_spec (some "Bearer abc")).2.2 "Bearer abc" rfl (by decide)).2
     "Bearer" "abc" (by decide) (by decide)⟩

end App
